import Mathlib

/-
Verification development for the map-drawing tool
(components/drawing-canvas.tsx and components/map-drawing-tool.tsx).

Conventions of the shallow embedding:
* JavaScript numbers are modelled as rationals (ℚ); all source arithmetic
  here is +, -, *, /, min, max, floor and comparisons, which are exact on ℚ.
  Division by zero in ℚ yields 0; every use of division in the source is
  either guarded (lenSq !== 0) or carries an explicit nonzero hypothesis.
* `Math.sqrt` appears in the source only to produce a distance that is
  immediately compared against a nonnegative threshold or returned; we embed
  the squared distance instead and compare against the squared threshold,
  which is equivalent because `Real.sqrt d < t ↔ (0 < t ∧ d < t^2)` for
  `d ≥ 0`.  Each such definition documents the transformation.
* React `useState` cells become fields of explicit state records
  (`ToolState` for MapDrawingTool, `CanvasState` for DrawingCanvas); each
  event handler becomes a pure state-transition function.
* `Date.now().toString()` (fresh line ids) is modelled as an explicit
  `newId` argument.
-/

namespace MapDraw

/-- Image-space or screen-space point, from `type Point = { x, y }`. -/
@[ext]
structure Point where
  x : ℚ
  y : ℚ
deriving DecidableEq, Repr

/-- A polyline with styling, from `type Line` in both source files. -/
structure Line where
  id : String
  points : List Point
  color : String
  opacity : ℚ
  label : String
  labelRotation : ℚ
  labelPosition : Option Point
  thickness : ℚ
deriving DecidableEq, Repr

/-- The four interaction modes of `DrawingCanvas`
(`useState<"draw" | "pan" | "rotate" | "drag">`). -/
inductive Mode where
  | draw
  | pan
  | rotate
  | drag
deriving DecidableEq, Repr

/-- Viewport data of `DrawingCanvas`: `canvasSize`, `imageSize` (the natural
image size times `baseScale`, called `scaledWidth/Height` at load time),
the natural image dimensions, `scale` (the base fit-to-contain scale),
the `zoomLevel` prop and the `panOffset` prop. -/
structure Viewport where
  canvasW : ℚ
  canvasH : ℚ
  naturalW : ℚ
  naturalH : ℚ
  imgW : ℚ
  imgH : ℚ
  scale : ℚ
  zoomLevel : ℚ
  panX : ℚ
  panY : ℚ
deriving DecidableEq, Repr

/-- `effectiveScale = scale * zoomLevel`, computed identically in
`drawCanvas`, `getImageCoordinates` and the hit-test helpers. -/
def effectiveScale (vp : Viewport) : ℚ :=
  vp.scale * vp.zoomLevel

/-- The x coordinate `imageX` computed in `getImageCoordinates`:
`(canvasSize.width - imageSize.width * zoomLevel) / 2 + panOffset.x`. -/
def imageOriginX (vp : Viewport) : ℚ :=
  (vp.canvasW - vp.imgW * vp.zoomLevel) / 2 + vp.panX

/-- The y coordinate `imageY` computed in `getImageCoordinates`. -/
def imageOriginY (vp : Viewport) : ℚ :=
  (vp.canvasH - vp.imgH * vp.zoomLevel) / 2 + vp.panY

/-- The bounds check of `getImageCoordinates`:
`canvasCoords.x >= imageX && canvasCoords.x <= imageX + imageSize.width *
zoomLevel && canvasCoords.y >= imageY && canvasCoords.y <= imageY +
imageSize.height * zoomLevel`. -/
def insideImageBounds (vp : Viewport) (c : Point) : Bool :=
  decide (imageOriginX vp ≤ c.x) &&
  decide (c.x ≤ imageOriginX vp + vp.imgW * vp.zoomLevel) &&
  decide (imageOriginY vp ≤ c.y) &&
  decide (c.y ≤ imageOriginY vp + vp.imgH * vp.zoomLevel)

/-- `getImageCoordinates` of `DrawingCanvas`: inside the image bounding
rectangle it divides the offset from the image origin by `effectiveScale`;
otherwise it returns `{ x: 0, y: 0 }` with no flag. -/
def getImageCoordinates (vp : Viewport) (c : Point) : Point :=
  if insideImageBounds vp c then
    ⟨(c.x - imageOriginX vp) / effectiveScale vp,
     (c.y - imageOriginY vp) / effectiveScale vp⟩
  else
    ⟨0, 0⟩

/-- The x offset computed in `drawCanvas`:
`(canvasSize.width - scaledWidth) / 2 + panOffset.x` with
`scaledWidth = img.width * effectiveScale`. -/
def drawOffsetX (vp : Viewport) : ℚ :=
  (vp.canvasW - vp.naturalW * effectiveScale vp) / 2 + vp.panX

/-- The y offset computed in `drawCanvas`. -/
def drawOffsetY (vp : Viewport) : ℚ :=
  (vp.canvasH - vp.naturalH * effectiveScale vp) / 2 + vp.panY

/-- Forward transform used by `drawLine` (`ctx.moveTo`/`ctx.lineTo`):
`offset + p * effectiveScale`, with the offsets handed down from
`drawCanvas`. -/
def imageToScreen (vp : Viewport) (p : Point) : Point :=
  ⟨drawOffsetX vp + p.x * effectiveScale vp,
   drawOffsetY vp + p.y * effectiveScale vp⟩

/-- `distanceToLineSegment` of `DrawingCanvas`, with the final
`Math.sqrt(dx * dx + dy * dy)` removed: this definition returns the
squared distance `dx * dx + dy * dy`.  Everything else — the `dot`,
`lenSq`, the `param` default of `-1` guarded by `lenSq !== 0`, and the
three projection branches — follows the source line by line. -/
def distanceToLineSegmentSq (point lineStart lineEnd : Point) : ℚ :=
  let a := point.x - lineStart.x
  let b := point.y - lineStart.y
  let c := lineEnd.x - lineStart.x
  let d := lineEnd.y - lineStart.y
  let dot := a * c + b * d
  let lenSq := c * c + d * d
  let param : ℚ := if lenSq ≠ 0 then dot / lenSq else -1
  let xx := if param < 0 then lineStart.x
            else if 1 < param then lineEnd.x
            else lineStart.x + param * c
  let yy := if param < 0 then lineStart.y
            else if 1 < param then lineEnd.y
            else lineStart.y + param * d
  let dx := point.x - xx
  let dy := point.y - yy
  dx * dx + dy * dy

/-- C9: the point-to-segment distance function is total on all inputs: on a
degenerate segment (`lineStart == lineEnd`) the `lenSq !== 0` guard routes
`param` to `-1`, no division by zero happens, and the result is the plain
point-to-point (squared) distance to `lineStart`; moreover the (squared)
result is nonnegative on every input, so taking `Math.sqrt` of it never
produces `NaN` and the function never throws. -/
theorem distanceToLineSegment_total (p a : Point) :
    distanceToLineSegmentSq p a a = (p.x - a.x) ^ 2 + (p.y - a.y) ^ 2 ∧
    ∀ q s e : Point, 0 ≤ distanceToLineSegmentSq q s e := by
  constructor
  · simp only [distanceToLineSegmentSq]
    norm_num
    ring
  · intro q s e
    simp only [distanceToLineSegmentSq]
    exact add_nonneg (mul_self_nonneg _) (mul_self_nonneg _)

/-- C3: for every image-space point `p` whose forward-transformed screen
position (`drawOffset + p * effectiveScale`, exactly as `drawLine` renders
it) lies inside the image bounding rectangle checked by
`getImageCoordinates`, the screen-to-image conversion returns `p` exactly
(the arithmetic is rational, so "within floating-point tolerance" holds
with zero error).  The hypotheses `hW`/`hH` record the invariant
established on image load: `imageSize = natural image size * baseScale`;
`he` is the non-degeneracy of the viewport. -/
theorem screenToImage_imageToScreen_roundtrip (vp : Viewport) (p : Point)
    (hW : vp.imgW = vp.naturalW * vp.scale)
    (hH : vp.imgH = vp.naturalH * vp.scale)
    (he : effectiveScale vp ≠ 0)
    (hin : insideImageBounds vp (imageToScreen vp p) = true) :
    getImageCoordinates vp (imageToScreen vp p) = p := by
  have hx : drawOffsetX vp = imageOriginX vp := by
    simp only [drawOffsetX, imageOriginX, effectiveScale, hW]
    ring
  have hy : drawOffsetY vp = imageOriginY vp := by
    simp only [drawOffsetY, imageOriginY, effectiveScale, hH]
    ring
  simp only [getImageCoordinates, hin, if_true]
  simp only [imageToScreen, hx, hy]
  ext
  · simp only [add_sub_cancel_left]
    exact mul_div_cancel_right₀ p.x he
  · simp only [add_sub_cancel_left]
    exact mul_div_cancel_right₀ p.y he

/-- Example viewport of spec §8: container 800×600, natural image 400×300,
so the fit-to-contain base scale is 2 and the displayed image size is
800×600; zoom 1, pan 0. -/
def vpExample : Viewport :=
  { canvasW := 800, canvasH := 600, naturalW := 400, naturalH := 300,
    imgW := 800, imgH := 600, scale := 2, zoomLevel := 1, panX := 0, panY := 0 }

/-- Witness for C3 at the spec's own scenario: image point (100,100) maps
to screen (200,200), which is inside the image rectangle, and converting
back returns (100,100). -/
theorem screenToImage_imageToScreen_roundtrip_witness :
    getImageCoordinates vpExample (imageToScreen vpExample ⟨100, 100⟩) = ⟨100, 100⟩ :=
  screenToImage_imageToScreen_roundtrip vpExample ⟨100, 100⟩
    (by norm_num [vpExample]) (by norm_num [vpExample])
    (by norm_num [vpExample, effectiveScale])
    (by norm_num [vpExample, insideImageBounds, imageToScreen, drawOffsetX,
          drawOffsetY, imageOriginX, imageOriginY, effectiveScale])

/-- The `useState` cells of `MapDrawingTool` that the drawing/selection
handlers read and write: the committed `lines`, the in-progress
`currentLine` with its `isDrawing` flag, the `selectedLine`, and the
side-panel style fields. -/
structure ToolState where
  lines : List Line
  currentLine : Option Line
  isDrawing : Bool
  selectedLine : Option Line
  color : String
  opacity : ℚ
  label : String
  labelRotation : ℚ
  zoomLevel : ℚ
  thickness : ℚ
deriving DecidableEq, Repr

/-- `handleStartDrawing` of `MapDrawingTool`: with a selection it only
clears the selection and returns; otherwise it creates the new in-progress
line seeded with the single point `{x, y}` (no `labelPosition` field) and
sets `isDrawing`.  `Date.now().toString()` is passed in as `newId`. -/
def handleStartDrawing (t : ToolState) (newId : String) (x y : ℚ) : ToolState :=
  match t.selectedLine with
  | some _ => { t with selectedLine := none }
  | none =>
    { t with
      currentLine := some
        { id := newId, points := [⟨x, y⟩], color := t.color,
          opacity := t.opacity / 100, label := "",
          labelRotation := t.labelRotation, labelPosition := none,
          thickness := t.thickness },
      isDrawing := true }

/-- `handleDrawing` of `MapDrawingTool`: appends `{x, y}` to the
in-progress line, guarded by `if (!isDrawing || !currentLine) return`. -/
def handleDrawing (t : ToolState) (x y : ℚ) : ToolState :=
  match t.currentLine, t.isDrawing with
  | some cl, true =>
      { t with currentLine := some { cl with points := cl.points ++ [⟨x, y⟩] } }
  | _, _ => t

/-- `handleEndDrawing` of `MapDrawingTool`: guarded by
`if (!isDrawing || !currentLine) return`; with ≥ 2 points it appends the
line with `labelPosition` set to `points[floor(length / 2)]` offset by
`-15` in y, and with fewer than 2 points it appends `currentLine`
unchanged (the `else` branch runs `setLines([...lines, currentLine])`);
both branches then clear `currentLine` and `isDrawing`. -/
def handleEndDrawing (t : ToolState) : ToolState :=
  match t.currentLine, t.isDrawing with
  | some cl, true =>
    if h : 2 ≤ cl.points.length then
      let midPoint := cl.points.get ⟨cl.points.length / 2, by omega⟩
      { t with
        lines := t.lines ++
          [{ cl with labelPosition := some ⟨midPoint.x, midPoint.y - 15⟩ }],
        currentLine := none, isDrawing := false }
    else
      { t with lines := t.lines ++ [cl], currentLine := none, isDrawing := false }
  | _, _ => t

/-- `handleUpdateLabelPosition` of `MapDrawingTool`: replaces
`labelPosition` of the line whose `id` matches. -/
def handleUpdateLabelPosition (t : ToolState) (lineId : String) (pos : Point) : ToolState :=
  { t with
    lines := t.lines.map fun l =>
      if l.id = lineId then { l with labelPosition := some pos } else l }

/-- The `drag`-mode branch of `handleMouseMove` in `DrawingCanvas`:
`onUpdateLabelPosition(selectedLine.id, getImageCoordinates(canvasCoords))`,
with `onUpdateLabelPosition` wired to `handleUpdateLabelPosition`. -/
def dragMove (vp : Viewport) (t : ToolState) (sel : Line) (canvasCoords : Point) : ToolState :=
  handleUpdateLabelPosition t sel.id (getImageCoordinates vp canvasCoords)

/-- The `draw`-mode branch of `handleMouseMove` in `DrawingCanvas`:
`onDrawing(imageCoords.x, imageCoords.y)`, with `onDrawing` wired to
`handleDrawing`. -/
def drawMove (vp : Viewport) (t : ToolState) (canvasCoords : Point) : ToolState :=
  handleDrawing t (getImageCoordinates vp canvasCoords).x (getImageCoordinates vp canvasCoords).y

/-- C1 amended: when a draw gesture ends (`handleEndDrawing` with
`isDrawing` set and an in-progress line), exactly one entry is appended to
the committed collection in *both* cases: with ≥ 2 points its
`labelPosition` is `points[floor(length / 2)]` offset by -15 in y, and
with fewer than 2 points the in-progress line is appended unchanged — it
is *not* discarded. -/
theorem handleEndDrawing_commit (t : ToolState) (cl : Line)
    (hc : t.currentLine = some cl) (hd : t.isDrawing = true) :
    (∀ h : 2 ≤ cl.points.length,
      (handleEndDrawing t).lines = t.lines ++
        [{ cl with labelPosition := some (Point.mk
            (cl.points.get ⟨cl.points.length / 2, by omega⟩).x
            ((cl.points.get ⟨cl.points.length / 2, by omega⟩).y - 15)) }]) ∧
    (cl.points.length < 2 → (handleEndDrawing t).lines = t.lines ++ [cl]) := by
  constructor
  · intro h
    simp only [handleEndDrawing, hc, hd, dif_pos h]
  · intro h
    have h2 : ¬ 2 ≤ cl.points.length := by omega
    simp only [handleEndDrawing, hc, hd, dif_neg h2]

/-- A three-point in-progress line used to exercise the commit path. -/
def lineThreePoints : Line :=
  { id := "t3", points := [⟨0, 0⟩, ⟨10, 4⟩, ⟨20, 0⟩], color := "#FF0000",
    opacity := 1, label := "", labelRotation := 0, labelPosition := none,
    thickness := 3 }

/-- A tool state in the middle of drawing `lineThreePoints`. -/
def stateDrawingThree : ToolState :=
  { lines := [], currentLine := some lineThreePoints, isDrawing := true,
    selectedLine := none, color := "#FF0000", opacity := 100, label := "",
    labelRotation := 0, zoomLevel := 1, thickness := 3 }

/-- Witness for C1's amended claim: ending the gesture on a 3-point line
appends exactly one entry whose `labelPosition` is the point at index
`floor(3 / 2) = 1`, namely (10, 4), offset to (10, -11). -/
theorem handleEndDrawing_commit_witness :
    (handleEndDrawing stateDrawingThree).lines =
      [{ lineThreePoints with labelPosition := some ⟨10, -11⟩ }] := by
  have h := (handleEndDrawing_commit stateDrawingThree lineThreePoints rfl rfl).1
    (by simp [lineThreePoints])
  have h415 : ((4 : ℚ) - 15) = -11 := by norm_num
  simpa [stateDrawingThree, lineThreePoints, h415] using h

/-- A one-point in-progress line: the result of a click with no move. -/
def lineOnePoint : Line :=
  { id := "t1", points := [⟨1, 2⟩], color := "#FF0000", opacity := 1,
    label := "", labelRotation := 0, labelPosition := none, thickness := 3 }

/-- A tool state in the middle of drawing `lineOnePoint`. -/
def stateDrawingOne : ToolState :=
  { lines := [], currentLine := some lineOnePoint, isDrawing := true,
    selectedLine := none, color := "#FF0000", opacity := 100, label := "",
    labelRotation := 0, zoomLevel := 1, thickness := 3 }

/-- Counterexample to C1 as stated: a draw gesture ending with a single
recorded point does *not* leave the committed collection unchanged — the
one-point line is appended, so the collection grows from 0 to 1 entries. -/
theorem handleEndDrawing_single_point_appends :
    stateDrawingOne.lines.length = 0 ∧
    (handleEndDrawing stateDrawingOne).lines = [lineOnePoint] := by
  constructor
  · rfl
  · simp [handleEndDrawing, stateDrawingOne, lineOnePoint]

/-- The interaction-state cells of `DrawingCanvas`: `isPanning`,
`lastPanPoint`, `hoveredLabel`, `isDraggingLabel`, `rotationStartAngle`,
`rotationCenter`, `interactionMode` and `cursorPosition`.  The viewport
cells (`canvasSize`, `imageSize`, `scale`) are modelled separately by
`Viewport`. -/
structure CanvasState where
  isPanning : Bool
  lastPanPoint : Point
  hoveredLabel : Option String
  isDraggingLabel : Bool
  rotationStartAngle : ℚ
  rotationCenter : Option Point
  interactionMode : Mode
  cursorPosition : Option Point
deriving DecidableEq, Repr

/-- The final branch of `handleMouseDown` in `DrawingCanvas`, reached when
no panning trigger, rotation handle, label or stroke was hit:
`setInteractionMode("draw")` (the call to `onStartDrawing` is modelled by
`handleStartDrawing` on the tool state). -/
def mouseDownEmptySpace (c : CanvasState) : CanvasState :=
  { c with interactionMode := Mode.draw }

/-- C7 amended: a pointer-down on empty space always puts the state
machine in `draw` mode, but a new in-progress line seeded with the
pointer's image-space point is begun *only when no line is selected*;
when a line is selected, `handleStartDrawing` merely clears the selection
and leaves `currentLine` and `isDrawing` untouched. -/
theorem emptySpaceMouseDown_spec (c : CanvasState) (t : ToolState)
    (newId : String) (x y : ℚ) :
    (mouseDownEmptySpace c).interactionMode = Mode.draw ∧
    (t.selectedLine = none →
      (handleStartDrawing t newId x y).currentLine = some
        { id := newId, points := [⟨x, y⟩], color := t.color,
          opacity := t.opacity / 100, label := "",
          labelRotation := t.labelRotation, labelPosition := none,
          thickness := t.thickness } ∧
      (handleStartDrawing t newId x y).isDrawing = true) ∧
    (∀ l, t.selectedLine = some l →
      (handleStartDrawing t newId x y).currentLine = t.currentLine ∧
      (handleStartDrawing t newId x y).isDrawing = t.isDrawing ∧
      (handleStartDrawing t newId x y).selectedLine = none) := by
  refine ⟨rfl, ?_, ?_⟩
  · intro hn
    simp [handleStartDrawing, hn]
  · intro l hl
    simp [handleStartDrawing, hl]

/-- A canvas state resting in `draw` mode with nothing active. -/
def canvasIdle : CanvasState :=
  { isPanning := false, lastPanPoint := ⟨0, 0⟩, hoveredLabel := none,
    isDraggingLabel := false, rotationStartAngle := 0, rotationCenter := none,
    interactionMode := Mode.draw, cursorPosition := none }

/-- A tool state with nothing drawn and nothing selected. -/
def stateEmpty : ToolState :=
  { lines := [], currentLine := none, isDrawing := false,
    selectedLine := none, color := "#FF0000", opacity := 100, label := "",
    labelRotation := 0, zoomLevel := 1, thickness := 3 }

/-- Witness for C7's amended claim: with no selection, a pointer-down on
empty space at image point (3, 4) begins a one-point in-progress line. -/
theorem emptySpaceMouseDown_spec_witness :
    (handleStartDrawing stateEmpty "n1" 3 4).currentLine = some
      { id := "n1", points := [⟨3, 4⟩], color := "#FF0000", opacity := 1,
        label := "", labelRotation := 0, labelPosition := none,
        thickness := 3 } ∧
    (handleStartDrawing stateEmpty "n1" 3 4).isDrawing = true := by
  have h := ((emptySpaceMouseDown_spec canvasIdle stateEmpty "n1" 3 4).2.1) rfl
  have h100 : ((100 : ℚ) / 100) = 1 := by norm_num
  simpa [stateEmpty, h100] using h

/-- A committed line with a label, used as the selected line below. -/
def lineSelected : Line :=
  { id := "sel", points := [⟨0, 0⟩, ⟨100, 0⟩], color := "#0000FF",
    opacity := 1, label := "Calle", labelRotation := 0,
    labelPosition := some ⟨50, 50⟩, thickness := 3 }

/-- A tool state in which `lineSelected` is committed and selected. -/
def stateSelected : ToolState :=
  { lines := [lineSelected], currentLine := none, isDrawing := false,
    selectedLine := some lineSelected, color := "#0000FF", opacity := 100,
    label := "Calle", labelRotation := 0, zoomLevel := 1, thickness := 3 }

/-- Counterexample to C7 as stated: with a line selected, a pointer-down
on empty space begins *no* in-progress line — `handleStartDrawing` returns
before creating one — so "regardless of whether a line was selected" is
false. -/
theorem emptySpaceMouseDown_selected_no_line :
    (handleStartDrawing stateSelected "n2" 3 4).currentLine = none ∧
    (handleStartDrawing stateSelected "n2" 3 4).isDrawing = false ∧
    (handleStartDrawing stateSelected "n2" 3 4).selectedLine = none := by
  refine ⟨rfl, rfl, rfl⟩

/-- `handleMouseUp` of `DrawingCanvas` (the `onMouseUp` handler): clears
`isPanning` if panning, clears `rotationCenter` if in `rotate` mode
(calling `onEndRotatingLabel`), clears `isDraggingLabel` if dragging,
calls `onEndDrawing` if in `draw` mode (modelled on `ToolState` by
`handleEndDrawing`), then unconditionally resets `interactionMode` to
`"draw"`. -/
def handleMouseUp (s : CanvasState) : CanvasState :=
  let s1 := if s.isPanning then { s with isPanning := false } else s
  let s2 := if s1.interactionMode = Mode.rotate then { s1 with rotationCenter := none } else s1
  let s3 := if s2.isDraggingLabel then { s2 with isDraggingLabel := false } else s2
  { s3 with interactionMode := Mode.draw }

/-- The `onMouseLeave` handler of the canvas element is wired to the very
same function: `onMouseLeave={handleMouseUp}`. -/
def handleMouseLeave (s : CanvasState) : CanvasState :=
  handleMouseUp s

/-- C8: after a pointer-up — and identically after a pointer-leave, which
is wired to the same handler — the interaction mode is `draw` and the
panning, label-dragging and rotation-center state are all cleared,
starting from any of the four modes.  The hypothesis is the component's
invariant that `rotationCenter` is only ever populated while in `rotate`
mode (it is set exactly when the rotate gesture starts and cleared when it
ends). -/
theorem handleMouseUp_resets (s : CanvasState)
    (hinv : s.rotationCenter ≠ none → s.interactionMode = Mode.rotate) :
    (handleMouseUp s).interactionMode = Mode.draw ∧
    (handleMouseUp s).isPanning = false ∧
    (handleMouseUp s).isDraggingLabel = false ∧
    (handleMouseUp s).rotationCenter = none ∧
    handleMouseLeave s = handleMouseUp s := by
  have hrc : ∀ s' : CanvasState, (handleMouseUp s').interactionMode = Mode.draw ∧
      (handleMouseUp s').isPanning = false ∧
      (handleMouseUp s').isDraggingLabel = false := by
    intro s'
    simp only [handleMouseUp]
    split_ifs <;> simp_all
  refine ⟨(hrc s).1, (hrc s).2.1, (hrc s).2.2, ?_, rfl⟩
  by_cases hm : s.interactionMode = Mode.rotate
  · simp only [handleMouseUp]
    split_ifs <;> simp_all
  · have h0 : s.rotationCenter = none := by
      by_contra hne
      exact hm (hinv hne)
    simp only [handleMouseUp]
    split_ifs <;> simp_all

/-- A canvas state in the middle of a pan gesture. -/
def canvasPanning : CanvasState :=
  { isPanning := true, lastPanPoint := ⟨120, 80⟩, hoveredLabel := none,
    isDraggingLabel := false, rotationStartAngle := 0, rotationCenter := none,
    interactionMode := Mode.pan, cursorPosition := some ⟨120, 80⟩ }

/-- Witness for C8: releasing the pointer mid-pan resets the machine to
`draw` with every gesture flag cleared. -/
theorem handleMouseUp_resets_witness :
    (handleMouseUp canvasPanning).interactionMode = Mode.draw ∧
    (handleMouseUp canvasPanning).isPanning = false ∧
    (handleMouseUp canvasPanning).isDraggingLabel = false ∧
    (handleMouseUp canvasPanning).rotationCenter = none ∧
    handleMouseLeave canvasPanning = handleMouseUp canvasPanning :=
  handleMouseUp_resets canvasPanning (by intro h; simp [canvasPanning] at h)

/-- C10: for every screen point outside the image bounding rectangle,
`getImageCoordinates` returns exactly `{x: 0, y: 0}` with no out-of-bounds
flag; that value is indistinguishable from the legitimate conversion of
the image's top-left corner (the screen point at the image origin also
converts to `{x: 0, y: 0}`); and the drag-mode and draw-mode callers of
`handleMouseMove` consume the sentinel as if it were a valid image point —
the drag branch stores it as the selected line's `labelPosition` and the
draw branch appends it to the in-progress line. -/
theorem getImageCoordinates_outside_sentinel (vp : Viewport) (c : Point)
    (hout : insideImageBounds vp c = false)
    (h0w : 0 ≤ vp.imgW * vp.zoomLevel) (h0h : 0 ≤ vp.imgH * vp.zoomLevel) :
    getImageCoordinates vp c = ⟨0, 0⟩ ∧
    insideImageBounds vp ⟨imageOriginX vp, imageOriginY vp⟩ = true ∧
    getImageCoordinates vp ⟨imageOriginX vp, imageOriginY vp⟩ = ⟨0, 0⟩ ∧
    (∀ t sel, dragMove vp t sel c = handleUpdateLabelPosition t sel.id ⟨0, 0⟩) ∧
    (∀ t, drawMove vp t c = handleDrawing t 0 0) := by
  have hs : getImageCoordinates vp c = ⟨0, 0⟩ := by
    simp [getImageCoordinates, hout]
  have hinO : insideImageBounds vp ⟨imageOriginX vp, imageOriginY vp⟩ = true := by
    simp only [insideImageBounds, Bool.and_eq_true, decide_eq_true_eq]
    refine ⟨⟨⟨le_refl _, by linarith⟩, le_refl _⟩, by linarith⟩
  refine ⟨hs, hinO, ?_, ?_, ?_⟩
  · simp [getImageCoordinates, hinO]
  · intro t sel
    simp [dragMove, hs]
  · intro t
    simp [drawMove, hs]

/-- A screen point above and to the left of the rendered image in the
example viewport. -/
def pointOutside : Point := ⟨-10, -10⟩

/-- Witness for C10: in the 800×600 example viewport the screen point
(-10,-10) is outside the image rectangle, converts to the `{0,0}`
sentinel, and the drag-mode caller stores `{0,0}` into `labelPosition`. -/
theorem getImageCoordinates_outside_sentinel_witness :
    getImageCoordinates vpExample pointOutside = ⟨0, 0⟩ ∧
    (∀ t sel, dragMove vpExample t sel pointOutside =
      handleUpdateLabelPosition t sel.id ⟨0, 0⟩) := by
  have hout : insideImageBounds vpExample pointOutside = false := by
    norm_num [insideImageBounds, vpExample, pointOutside, imageOriginX, imageOriginY]
  have h := getImageCoordinates_outside_sentinel vpExample pointOutside hout
    (by norm_num [vpExample]) (by norm_num [vpExample])
  exact ⟨h.1, h.2.2.2.1⟩

/-- C2 is a code bug, exhibited here: while dragging the label of the
selected line `lineSelected` (whose stored `labelPosition` is (50,50)),
one pointer-move to the screen point (-10,-10) — outside the image
bounding rectangle of the example viewport — does *not* leave
`labelPosition` unchanged: `getImageCoordinates` returns the unflagged
`{0,0}` sentinel and the drag branch of `handleMouseMove` writes it
through `onUpdateLabelPosition`, overwriting `labelPosition` with
`{0,0}`. -/
theorem dragMove_outside_overwrites_origin :
    lineSelected.labelPosition = some ⟨50, 50⟩ ∧
    insideImageBounds vpExample pointOutside = false ∧
    (dragMove vpExample stateSelected lineSelected pointOutside).lines =
      [{ lineSelected with labelPosition := some ⟨0, 0⟩ }] := by
  refine ⟨rfl, ?_, ?_⟩
  · norm_num [insideImageBounds, vpExample, pointOutside, imageOriginX, imageOriginY]
  · have hout : insideImageBounds vpExample pointOutside = false := by
      norm_num [insideImageBounds, vpExample, pointOutside, imageOriginX, imageOriginY]
    simp [dragMove, getImageCoordinates, hout, handleUpdateLabelPosition,
      stateSelected, lineSelected]

/-- The angle computation of the `rotate` branch of `handleMouseMove`,
after `Math.atan2(dy, dx) * (180 / Math.PI)` has produced the raw angle in
degrees: `Math.round(angle / 5) * 5` (Lean's `round` on ℚ is
`⌊x + 1/2⌋`, the same as JavaScript's `Math.round`), then
`if (newAngle < 0) newAngle += 360` and `if (newAngle >= 360) newAngle -=
360`. -/
def snapRotation (angle : ℚ) : ℚ :=
  let newAngle : ℚ := (round (angle / 5) : ℤ) * 5
  let a1 := if newAngle < 0 then newAngle + 360 else newAngle
  if 360 ≤ a1 then a1 - 360 else a1

/-- `handleRotateLabel` of `MapDrawingTool`: pushes the angle into the
live edit field (`setLabelRotation`) and, when a line is selected, into
that line's `labelRotation` in the committed collection. -/
def handleRotateLabel (t : ToolState) (angle : ℚ) : ToolState :=
  let t1 := { t with labelRotation := angle }
  match t.selectedLine with
  | some sel =>
    { t1 with
      lines := t1.lines.map fun l =>
        if l.id = sel.id then { l with labelRotation := angle } else l }
  | none => t1

/-- One pointer-move processed in `rotate` mode: `handleMouseMove` snaps
the raw atan2 angle and calls `onRotateLabel(newAngle)`, wired to
`handleRotateLabel`. -/
def rotateMove (t : ToolState) (rawAngle : ℚ) : ToolState :=
  handleRotateLabel t (snapRotation rawAngle)

/-- C5: after any `rotate`-mode pointer-move, the snapped angle is a
multiple of 5 lying in [0, 360), and it is pushed into both the live edit
field (`labelRotation` of the tool state) and the selected line's
`labelRotation`.  The hypotheses delimit the raw input: `Math.atan2`
always returns a value in (-π, π], so the raw degree angle lies in
[-180, 180]. -/
theorem rotateMove_angle_spec (t : ToolState) (raw : ℚ)
    (h1 : -180 ≤ raw) (h2 : raw ≤ 180) :
    (0 ≤ snapRotation raw ∧ snapRotation raw < 360 ∧
      ∃ k : ℤ, snapRotation raw = 5 * k) ∧
    (rotateMove t raw).labelRotation = snapRotation raw ∧
    (∀ sel l, t.selectedLine = some sel → l ∈ (rotateMove t raw).lines →
      l.id = sel.id → l.labelRotation = snapRotation raw) := by
  have hk1 : (-36 : ℤ) ≤ round (raw / 5) := by
    rw [round_eq]
    refine Int.le_floor.mpr ?_
    push_cast
    linarith
  have hk2 : round (raw / 5) ≤ 36 := by
    rw [round_eq]
    have hle : (⌊raw / 5 + 1 / 2⌋ : ℚ) ≤ raw / 5 + 1 / 2 := Int.floor_le _
    have hlt : (⌊raw / 5 + 1 / 2⌋ : ℚ) < 37 := by linarith
    exact_mod_cast Int.lt_add_one_iff.mp (by exact_mod_cast hlt)
  have hc1 : (-36 : ℚ) ≤ (round (raw / 5) : ℚ) := by exact_mod_cast hk1
  have hc2 : ((round (raw / 5) : ℚ)) ≤ 36 := by exact_mod_cast hk2
  refine ⟨?_, ?_, ?_⟩
  · simp only [snapRotation]
    split_ifs with hneg hw1 hw2
    · exact absurd hw1 (by linarith)
    · exact ⟨by linarith, by linarith, ⟨round (raw / 5) + 72, by push_cast; ring⟩⟩
    · exact absurd hw2 (by linarith)
    · exact ⟨by linarith, by linarith, ⟨round (raw / 5), by ring⟩⟩
  · simp only [rotateMove, handleRotateLabel]
    cases t.selectedLine <;> rfl
  · intro sel l hsel hmem hid
    simp only [rotateMove, handleRotateLabel, hsel, List.mem_map] at hmem
    obtain ⟨l0, -, hl0⟩ := hmem
    by_cases hc : l0.id = sel.id
    · rw [if_pos hc] at hl0
      rw [← hl0]
    · rw [if_neg hc] at hl0
      rw [← hl0] at hid
      exact absurd hid hc

/-- Witness for C5 at the concrete raw angle 47°: the snapped angle is 45,
a multiple of 5 in [0, 360), pushed into the edit field and the selected
line. -/
theorem rotateMove_angle_spec_witness :
    snapRotation 47 = 45 ∧
    ((0 ≤ snapRotation 47 ∧ snapRotation 47 < 360 ∧
        ∃ k : ℤ, snapRotation 47 = 5 * k) ∧
      (rotateMove stateSelected 47).labelRotation = snapRotation 47 ∧
      (∀ sel l, stateSelected.selectedLine = some sel →
        l ∈ (rotateMove stateSelected 47).lines → l.id = sel.id →
        l.labelRotation = snapRotation 47)) := by
  constructor
  · have h9 : round ((47 : ℚ) / 5) = 9 := by
      rw [round_eq]
      norm_num
    norm_num [snapRotation, h9]
  · exact rotateMove_angle_spec stateSelected 47 (by norm_num) (by norm_num)

/-- The outcome of one `handleWheel` call in `DrawingCanvas`: the
component's `zoomLevel` prop after the event (`zoomAfter` — the handler
has no setter for it, so it is returned unchanged), the `newZoom` value
the handler computes and passes to `console.log`, and the adjusted
`panOffset`. -/
structure WheelOut where
  zoomAfter : ℚ
  newZoomComputed : ℚ
  panAfter : Point
deriving DecidableEq, Repr

/-- `handleWheel` of `DrawingCanvas`:
`delta = e.deltaY > 0 ? -0.1 : 0.1`,
`newZoom = Math.max(0.5, Math.min(3, zoomLevel + delta))`, then the
pan offset is biased toward or away from the mouse position by a factor
0.05.  The computed `newZoom` flows only into `console.log` ("This would
be set via a prop in a real implementation"); no state setter for the
zoom level exists in this component, so `zoomAfter = zoomLevel`. -/
def handleWheel (zoomLevel deltaY : ℚ) (mouse : Point)
    (canvasW canvasH : ℚ) (pan : Point) : WheelOut :=
  let delta : ℚ := if 0 < deltaY then -(1 / 10) else 1 / 10
  let newZoom := max (1 / 2) (min 3 (zoomLevel + delta))
  let panAfter :=
    if 0 < delta then
      Point.mk (pan.x - (mouse.x - canvasW / 2) * (1 / 20))
               (pan.y - (mouse.y - canvasH / 2) * (1 / 20))
    else
      Point.mk (pan.x + (mouse.x - canvasW / 2) * (1 / 20))
               (pan.y + (mouse.y - canvasH / 2) * (1 / 20))
  { zoomAfter := zoomLevel, newZoomComputed := newZoom, panAfter := panAfter }

/-- `handleZoomIn` of `MapDrawingTool` (the zoom button, which *does* set
the zoom level): `Math.min(prev + 0.1, 3)`. -/
def handleZoomIn (z : ℚ) : ℚ := min (z + 1 / 10) 3

/-- `handleZoomOut` of `MapDrawingTool`: `Math.max(prev - 0.1, 0.5)`. -/
def handleZoomOut (z : ℚ) : ℚ := max (z - 1 / 10) (1 / 2)

/-- C6 is a code bug, exhibited here: one wheel event (scroll up,
`deltaY = -1`) at `zoomLevel` 1.0 computes `newZoom = 1.1` by the claimed
±0.1-clamped-to-[0.5, 3] formula — and at 2.95 computes the correctly
clamped 3.0 rather than 3.05 — but the handler never applies it: the
`zoomLevel` seen by the component is unchanged (the value only reaches
`console.log`).  The zoom buttons (`handleZoomIn`), by contrast, do apply
the same clamped step. -/
theorem handleWheel_zoom_not_applied :
    (handleWheel 1 (-1) ⟨0, 0⟩ 800 600 ⟨0, 0⟩).newZoomComputed = 11 / 10 ∧
    (handleWheel 1 (-1) ⟨0, 0⟩ 800 600 ⟨0, 0⟩).zoomAfter = 1 ∧
    (handleWheel (59 / 20) (-1) ⟨0, 0⟩ 800 600 ⟨0, 0⟩).newZoomComputed = 3 ∧
    (handleWheel (59 / 20) (-1) ⟨0, 0⟩ 800 600 ⟨0, 0⟩).zoomAfter = 59 / 20 ∧
    handleZoomIn 1 = 11 / 10 ∧ handleZoomIn (59 / 20) = 3 := by
  norm_num [handleWheel, handleZoomIn, min_def, max_def]

/-- The `line.thickness || 3` fallback in `findLineAtPoint`: JavaScript's
`||` replaces the falsy number 0 by the default 3. -/
def thicknessOr3 (l : Line) : ℚ :=
  if l.thickness = 0 then 3 else l.thickness

/-- The `hitThreshold` of `findLineAtPoint`:
`((line.thickness || 3) * 2) / (scale * zoomLevel)`. -/
def hitThreshold (l : Line) (scale zoom : ℚ) : ℚ :=
  thicknessOr3 l * 2 / (scale * zoom)

/-- The acceptance test `distance < hitThreshold` of `findLineAtPoint`,
where `distance = Math.sqrt(distanceToLineSegmentSq ...)`: for a
nonnegative radicand this comparison is equivalent to
`0 < hitThreshold ∧ distanceToLineSegmentSq < hitThreshold ^ 2`, which is
the form embedded here. -/
def segHit (p a b : Point) (thr : ℚ) : Bool :=
  decide (0 < thr) && decide (distanceToLineSegmentSq p a b < thr ^ 2)

/-- The consecutive point pairs `(points[i], points[i+1])` for
`i = 0 .. points.length - 2`, the ranges of the inner loop of
`findLineAtPoint`. -/
def consecPairs (ps : List Point) : List (Point × Point) :=
  ps.zip ps.tail

/-- Whether the inner loop of `findLineAtPoint` accepts line `l` at image
point `p`: some consecutive pair passes the threshold test. -/
def lineHit (p : Point) (l : Line) (scale zoom : ℚ) : Bool :=
  (consecPairs l.points).any fun q => segHit p q.1 q.2 (hitThreshold l scale zoom)

/-- `findLineAtPoint` of `DrawingCanvas`: iterate the committed lines in
order and return the first whose inner loop accepts; `null` (here `none`)
otherwise. -/
def findLineAtPoint (lines : List Line) (p : Point) (scale zoom : ℚ) : Option Line :=
  lines.find? fun l => lineHit p l scale zoom

/-- Doubling of image-space coordinates, used to express that the zoom-2
hit test on a configuration equals the zoom-1 hit test on the doubled
configuration (both have identical screen-space geometry). -/
def scalePoint (k : ℚ) (p : Point) : Point :=
  ⟨k * p.x, k * p.y⟩

/-- A line with all points doubled and every style field kept. -/
def scaleLine (k : ℚ) (l : Line) : Line :=
  { l with points := l.points.map (scalePoint k) }

/-- Index characterisation of `List.any` over the consecutive-pair list:
some pair passes `f` exactly when some index `i` with `i + 1 <
ps.length` passes `f` on `(ps[i], ps[i+1])`. -/
theorem consecPairs_any_iff (f : Point × Point → Bool) :
    ∀ ps : List Point,
      ((consecPairs ps).any f = true ↔
        ∃ i, ∃ h : i + 1 < ps.length,
          f (ps.get ⟨i, Nat.lt_of_succ_lt h⟩, ps.get ⟨i + 1, h⟩) = true)
  | [] => by simp [consecPairs]
  | [a] => by simp [consecPairs]
  | a :: b :: t => by
    have ih := consecPairs_any_iff f (b :: t)
    have hstep : consecPairs (a :: b :: t) = (a, b) :: consecPairs (b :: t) := rfl
    rw [hstep, List.any_cons, Bool.or_eq_true, ih]
    constructor
    · rintro (hab | ⟨i, hi, hf⟩)
      · exact ⟨0, by simp, by simpa using hab⟩
      · exact ⟨i + 1, by simpa using Nat.succ_lt_succ hi, by simpa using hf⟩
    · rintro ⟨i, hi, hf⟩
      match i with
      | 0 => exact Or.inl (by simpa using hf)
      | i + 1 =>
        exact Or.inr ⟨i, by simp only [List.length_cons] at hi ⊢; omega, by simpa using hf⟩

/-- Doubling all three points multiplies the squared point-to-segment
distance by 4: the guarded `param` is unchanged and every branch of the
projection scales linearly. -/
theorem distanceToLineSegmentSq_scale_two (p a b : Point) :
    distanceToLineSegmentSq (scalePoint 2 p) (scalePoint 2 a) (scalePoint 2 b) =
      4 * distanceToLineSegmentSq p a b := by
  simp only [distanceToLineSegmentSq, scalePoint]
  by_cases hL : (b.x - a.x) * (b.x - a.x) + (b.y - a.y) * (b.y - a.y) = 0
  · have hc1 : ¬((2 * b.x - 2 * a.x) * (2 * b.x - 2 * a.x) +
        (2 * b.y - 2 * a.y) * (2 * b.y - 2 * a.y) ≠ 0) := by
      intro h
      exact h (by linear_combination 4 * hL)
    have hc2 : ¬((b.x - a.x) * (b.x - a.x) + (b.y - a.y) * (b.y - a.y) ≠ 0) :=
      fun h => h hL
    have hm1 : ((-1 : ℚ) < 0) := by norm_num
    rw [if_neg hc1, if_neg hc2]
    simp only [if_pos hm1]
    ring
  · have hc1 : (2 * b.x - 2 * a.x) * (2 * b.x - 2 * a.x) +
        (2 * b.y - 2 * a.y) * (2 * b.y - 2 * a.y) ≠ 0 := by
      intro h
      exact hL (by linear_combination h / 4)
    rw [if_pos hc1, if_pos hL]
    have hpar : ((2 * p.x - 2 * a.x) * (2 * b.x - 2 * a.x) +
          (2 * p.y - 2 * a.y) * (2 * b.y - 2 * a.y)) /
          ((2 * b.x - 2 * a.x) * (2 * b.x - 2 * a.x) +
            (2 * b.y - 2 * a.y) * (2 * b.y - 2 * a.y)) =
        ((p.x - a.x) * (b.x - a.x) + (p.y - a.y) * (b.y - a.y)) /
          ((b.x - a.x) * (b.x - a.x) + (b.y - a.y) * (b.y - a.y)) := by
      rw [show (2 * p.x - 2 * a.x) * (2 * b.x - 2 * a.x) +
            (2 * p.y - 2 * a.y) * (2 * b.y - 2 * a.y) =
          4 * ((p.x - a.x) * (b.x - a.x) + (p.y - a.y) * (b.y - a.y)) from by ring,
        show (2 * b.x - 2 * a.x) * (2 * b.x - 2 * a.x) +
            (2 * b.y - 2 * a.y) * (2 * b.y - 2 * a.y) =
          4 * ((b.x - a.x) * (b.x - a.x) + (b.y - a.y) * (b.y - a.y)) from by ring]
      exact mul_div_mul_left _ _ (by norm_num)
    rw [hpar]
    split_ifs <;> ring

/-- The segment test at zoom 2 equals the segment test at zoom 1 on the
doubled configuration: the zoom-1 threshold `T * 2 / (s * 1)` is twice the
zoom-2 threshold `T * 2 / (s * 2)`, and doubling quadruples the squared
distance. -/
theorem segHit_zoom_two (p a b : Point) (T s : ℚ) :
    segHit p a b (T * 2 / (s * 2)) =
      segHit (scalePoint 2 p) (scalePoint 2 a) (scalePoint 2 b) (T * 2 / (s * 1)) := by
  have hthr : T * 2 / (s * 1) = 2 * (T * 2 / (s * 2)) := by
    rcases eq_or_ne s 0 with hs | hs
    · simp [hs]
    · field_simp
      ring
  simp only [segHit, distanceToLineSegmentSq_scale_two, hthr]
  rw [← Bool.decide_and, ← Bool.decide_and, decide_eq_decide]
  constructor
  · rintro ⟨h1, h2⟩
    exact ⟨by linarith, by nlinarith⟩
  · rintro ⟨h1, h2⟩
    exact ⟨by linarith, by nlinarith⟩

/-- Line-level version of the zoom-scaling property. -/
theorem lineHit_zoom_two (p : Point) (l : Line) (s : ℚ) :
    lineHit p l s 2 = lineHit (scalePoint 2 p) (scaleLine 2 l) s 1 := by
  have htails : (l.points.map (scalePoint 2)).tail = l.points.tail.map (scalePoint 2) := by
    cases l.points <;> rfl
  have hthick : thicknessOr3 (scaleLine 2 l) = thicknessOr3 l := rfl
  simp only [lineHit, scaleLine, consecPairs, hitThreshold, hthick]
  rw [htails, List.zip_map, List.any_map]
  congr 1
  funext q
  exact segHit_zoom_two p q.1 q.2 (thicknessOr3 l) s

/-- C4: `findLineAtPoint` accepts an image-space point against the
committed lines exactly when some line has a consecutive point pair whose
projection-clamped (squared) segment distance beats the threshold
`thickness * 2 / (scale * zoomLevel)` (squared; the source compares the
unsquared quantities, equivalently); and the zoom-2 test on a
configuration coincides with the zoom-1 test on the doubled
configuration — the doubled configuration is the one presenting the same
screen-space click distance at zoom 1, with half the image-space
distance appearing at zoom 2. -/
theorem findLineAtPoint_spec (lines : List Line) (p : Point) (s z : ℚ) :
    ((findLineAtPoint lines p s z).isSome ↔
      ∃ l ∈ lines, ∃ i, ∃ h : i + 1 < l.points.length,
        0 < hitThreshold l s z ∧
        distanceToLineSegmentSq p (l.points.get ⟨i, Nat.lt_of_succ_lt h⟩)
          (l.points.get ⟨i + 1, h⟩) < hitThreshold l s z ^ 2) ∧
    (∀ l : Line, lineHit p l s 2 = lineHit (scalePoint 2 p) (scaleLine 2 l) s 1) := by
  constructor
  · have hchar : ∀ l : Line, lineHit p l s z = true ↔
        ∃ i, ∃ h : i + 1 < l.points.length,
          0 < hitThreshold l s z ∧
          distanceToLineSegmentSq p (l.points.get ⟨i, Nat.lt_of_succ_lt h⟩)
            (l.points.get ⟨i + 1, h⟩) < hitThreshold l s z ^ 2 := by
      intro l
      rw [lineHit, consecPairs_any_iff]
      refine exists_congr fun i => exists_congr fun h => ?_
      simp [segHit, decide_eq_true_eq]
    rw [findLineAtPoint, List.find?_isSome]
    exact exists_congr fun l => and_congr_right fun _ => hchar l
  · exact fun l => lineHit_zoom_two p l s

end MapDraw
